import Mathlib

/- Verification of the Automated-Rock-Glacier-Detection raster pipeline.
   The definitions below are a shallow embedding of the Python sources:
   fusion.py (reproject / stack / normalize), ndvi_savi_swir.py
   (Sentinel-2 band loading and index derivation), sent-1_croper.py and
   tif_cropper.py (tiling engines), and the Sentinel subsetting / clip
   scripts (overlap detection and per-feature polygon clipping).
   Pixel samples are modelled as exact rationals; where numpy float
   division semantics matter (division by zero yielding NaN or infinity
   instead of raising), the value type NVal makes that explicit. -/

namespace RG

/-- A raster band: a grid of pixel samples, row major, as in a numpy 2-D array. -/
abbrev Grid := List (List ℚ)

/-- Shape predicate: the grid has exactly the given number of rows, each of the given width. -/
def hasShape (g : Grid) (h w : ℕ) : Prop :=
  g.length = h ∧ ∀ row ∈ g, row.length = w

instance (g : Grid) (h w : ℕ) : Decidable (hasShape g h w) := by
  unfold hasShape; infer_instance

/-- Pixel access with defaults, mirroring in-bounds numpy indexing when the indices are valid. -/
def gridGet (g : Grid) (i j : ℕ) : ℚ :=
  (g.getD i []).getD j 0

/-- Minimum of a list of samples, as np.min over a nonempty array. -/
def listMin (l : List ℚ) : ℚ := l.foldl min (l.headD 0)

/-- Maximum of a list of samples, as np.max over a nonempty array. -/
def listMax (l : List ℚ) : ℚ := l.foldl max (l.headD 0)

/-- All samples of a band in row-major order. -/
def gridVals (g : Grid) : List ℚ := g.flatten

/-- Numpy-style float value: a finite rational, NaN, or a signed infinity. -/
inductive NVal where
  | fin (q : ℚ)
  | nan
  | pinf
  | ninf
deriving DecidableEq, Repr

/-- Numpy float division: dividing by zero does not raise; 0/0 is NaN and x/0 is a signed infinity. -/
def fdiv (a b : ℚ) : NVal :=
  if b = 0 then
    if a = 0 then NVal.nan else if 0 < a then NVal.pinf else NVal.ninf
  else NVal.fin (a / b)

/-- Raster metadata as carried by a rasterio profile: grid size, band count and CRS tag. -/
structure RMeta where
  height : ℕ
  width : ℕ
  count : ℕ
  crs : String
deriving DecidableEq, Repr

/-- A source raster: its profile metadata plus its list of bands (band 1 first). -/
structure SrcRaster where
  meta : RMeta
  bands : List Grid
deriving DecidableEq, Repr

/-- Result of fusion.py normalize_raster: the single band it writes (band 1 of the
output file) together with the band count the output profile declares. -/
structure NormOut where
  writtenBand : List (List NVal)
  profileCount : ℕ
deriving DecidableEq, Repr

/-- Embedding of fusion.py normalize_raster: it reads band 1 only (src.read(1)),
takes the min and max of that band, rescales it by (x - min) / (max - min) with
numpy float division, and writes the result as band 1 of a file whose profile
keeps the source band count. -/
def normalize_raster (r : SrcRaster) : NormOut :=
  let data := r.bands.headD []
  let dataMin := listMin (gridVals data)
  let dataMax := listMax (gridVals data)
  { writtenBand := data.map (fun row => row.map (fun x => fdiv (x - dataMin) (dataMax - dataMin)))
    profileCount := r.meta.count }

/-- Errors surfaced by fusion.py stack_rasters: no input file at all, or a band whose
shape does not match the profile taken from the first input (rasterio raises on write). -/
inductive StackErr where
  | noInput
  | shapeMismatch
deriving DecidableEq, Repr

/-- Boolean check that a band matches the width and height of a profile. -/
def bandFits (meta : RMeta) (g : Grid) : Bool :=
  g.length == meta.height && g.all (fun row => row.length == meta.width)

/-- Embedding of fusion.py stack_rasters: metadata is taken from the first input and
its count is set to the number of inputs; band 1 of every input (src.read(1)) becomes
the next band of the output; writing a band whose shape differs from the profile is a
fatal rasterio error, modelled as shapeMismatch. -/
def stack_rasters (inputs : List SrcRaster) : Except StackErr SrcRaster :=
  match inputs with
  | [] => Except.error StackErr.noInput
  | first :: rest =>
    if ((first :: rest).map (fun s => s.bands.headD [])).all
        (fun l => bandFits { first.meta with count := (first :: rest).length } l) then
      Except.ok { meta := { first.meta with count := (first :: rest).length },
                  bands := (first :: rest).map (fun s => s.bands.headD []) }
    else
      Except.error StackErr.shapeMismatch

/-- The epsilon used by the index formulas in ndvi_savi_swir.py. -/
def ndviEps : ℚ := 1 / 1000000

/-- Embedding of Sentinel2Processor.calculate_ndvi: elementwise
(nir - red) / (nir + red + 1e-6) over the two band grids. -/
def calculate_ndvi (red nir : Grid) : Grid :=
  List.zipWith (fun nrow rrow =>
    List.zipWith (fun n r => (n - r) / (n + r + ndviEps)) nrow rrow) nir red

/-- A stacked two-band input raster for exercising normalize_raster: band 1 holds 0 and 1,
band 2 holds 2 and 3, so the global extrema over the whole stack are 0 and 3 while the
extrema of band 1 alone are 0 and 1. -/
def c1stack : SrcRaster :=
  { meta := { height := 1, width := 2, count := 2, crs := "EPSG:4326" }
    bands := [[[0, 1]], [[2, 3]]] }

/-- A constant one-band raster, every sample equal to 5, so min equals max. -/
def c5const : SrcRaster :=
  { meta := { height := 1, width := 2, count := 1, crs := "EPSG:4326" }
    bands := [[[5, 5]]] }

/-- Boolean shape check agrees with the shape predicate. -/
lemma bandFits_iff (m : RMeta) (g : Grid) :
    bandFits m g = true ↔ hasShape g m.height m.width := by
  simp [bandFits, hasShape, List.all_eq_true]

/-- Success case of stack_rasters shared by the stacking claims: when band 1 of every
input matches the first input's profile shape, the output carries the first input's
metadata with the count set to the number of inputs, and its band list is band 1 of
each input in order. -/
lemma stack_rasters_ok (first : SrcRaster) (rest : List SrcRaster)
    (hfit : ∀ s ∈ first :: rest,
      hasShape (s.bands.headD []) first.meta.height first.meta.width) :
    stack_rasters (first :: rest)
      = Except.ok { meta := { first.meta with count := (first :: rest).length },
                    bands := (first :: rest).map (fun s => s.bands.headD []) } := by
  have hcond : ((first :: rest).map (fun s => s.bands.headD [])).all
      (fun l => bandFits { first.meta with count := (first :: rest).length } l) = true := by
    refine List.all_eq_true.mpr (fun l hl => ?_)
    obtain ⟨s, hs, rfl⟩ := List.mem_map.mp hl
    exact (bandFits_iff _ _).mpr (hfit s hs)
  simp only [stack_rasters]
  rw [hcond]
  simp

/-- Failure case of stack_rasters: some input's band 1 does not match the first
input's profile shape, so the write raises and stacking is a fatal shape mismatch. -/
lemma stack_rasters_mismatch (first : SrcRaster) (rest : List SrcRaster)
    (hbad : ∃ s ∈ first :: rest,
      ¬ hasShape (s.bands.headD []) first.meta.height first.meta.width) :
    stack_rasters (first :: rest) = Except.error StackErr.shapeMismatch := by
  obtain ⟨s, hs, hns⟩ := hbad
  have hcond : ((first :: rest).map (fun s => s.bands.headD [])).all
      (fun l => bandFits { first.meta with count := (first :: rest).length } l) = false := by
    refine List.all_eq_false.mpr ⟨s.bands.headD [], List.mem_map_of_mem _ hs, ?_⟩
    intro hfit
    exact hns ((bandFits_iff _ _).mp hfit)
  simp only [stack_rasters]
  rw [hcond]
  simp

/-- Claim C1 (code bug evidence): normalize_raster applied to the stacked two-band
raster c1stack reads band 1 only. Its written band is band 1 rescaled with the
extrema of band 1 (min 0, max 1), producing 0 and 1, even though the global extrema
over all bands combined are 0 and 3, under which sample 1 would map to 1/3; the
profile still declares two bands although only one is written. -/
theorem c1_normalize_band1_only :
    normalize_raster c1stack
      = { writtenBand := [[NVal.fin 0, NVal.fin 1]], profileCount := 2 } ∧
    listMin (gridVals c1stack.bands.flatten) = 0 ∧
    listMax (gridVals c1stack.bands.flatten) = 3 ∧
    fdiv (1 - 0) (3 - 0) = NVal.fin (1 / 3) ∧
    (normalize_raster c1stack).writtenBand ≠ [[NVal.fin 0, NVal.fin (1 / 3)]] := by
  have h1 : normalize_raster c1stack
      = { writtenBand := [[NVal.fin 0, NVal.fin 1]], profileCount := 2 } := by
    norm_num [normalize_raster, c1stack, gridVals, listMin, listMax, fdiv]
  refine ⟨h1, ?_, ?_, ?_, ?_⟩
  · norm_num [c1stack, gridVals, listMin]
  · norm_num [c1stack, gridVals, listMax]
  · norm_num [fdiv]
  · rw [h1]
    norm_num

/-- Claim C5 (code bug evidence): normalize_raster applied to the constant raster
c5const, whose min equals its max, divides zero by zero at every pixel; numpy float
division yields NaN instead of raising, so the written band is NaN everywhere rather
than any guarded defined value. -/
theorem c5_constant_normalize_nan :
    (normalize_raster c5const).writtenBand = [[NVal.nan, NVal.nan]] ∧
    (∀ v ∈ (normalize_raster c5const).writtenBand.flatten, ∀ q : ℚ, v ≠ NVal.fin q) := by
  have h0 : (normalize_raster c5const).writtenBand = [[NVal.nan, NVal.nan]] := by
    norm_num [normalize_raster, c5const, gridVals, listMin, listMax, fdiv]
  refine ⟨h0, ?_⟩
  intro v hv q
  have h1 : (normalize_raster c5const).writtenBand.flatten = [NVal.nan, NVal.nan] := by
    rw [h0]; rfl
  rw [h1] at hv
  simp only [List.mem_cons, List.not_mem_nil, or_false] at hv
  rcases hv with rfl | rfl <;> simp

/-- Claim C2: the derived NDVI grid equals (NIR - RED) / (NIR + RED + 1e-6)
elementwise over equally shaped band grids, and on RED = NIR = [0] the result is 0
with no division error, the epsilon keeping the denominator nonzero. -/
theorem ndvi_formula (red nir : Grid) (h w i j : ℕ)
    (hr : hasShape red h w) (hn : hasShape nir h w) (hi : i < h) (hj : j < w) :
    gridGet (calculate_ndvi red nir) i j
      = (gridGet nir i j - gridGet red i j)
        / (gridGet nir i j + gridGet red i j + ndviEps) ∧
    calculate_ndvi [[0]] [[0]] = [[0]] := by
  constructor
  · obtain ⟨hrl, hrw⟩ := hr
    obtain ⟨hnl, hnw⟩ := hn
    have hni : i < nir.length := by omega
    have hri : i < red.length := by omega
    have hrown : nir[i].length = w := hnw _ (List.getElem_mem hni)
    have hrowr : red[i].length = w := hrw _ (List.getElem_mem hri)
    have h1 : i < (calculate_ndvi red nir).length := by
      simp [calculate_ndvi]; omega
    unfold gridGet
    rw [List.getD_eq_getElem _ _ hni, List.getD_eq_getElem _ _ hri,
      List.getD_eq_getElem _ _ h1,
      List.getD_eq_getElem _ _ (show j < nir[i].length by omega),
      List.getD_eq_getElem _ _ (show j < red[i].length by omega)]
    have hcn : (calculate_ndvi red nir)[i]
        = List.zipWith (fun n r => (n - r) / (n + r + ndviEps)) nir[i] red[i] :=
      List.getElem_zipWith (h := h1)
    rw [hcn, List.getD_eq_getElem _ _ (show j <
      (List.zipWith (fun n r => (n - r) / (n + r + ndviEps)) nir[i] red[i]).length by
        simp; omega)]
    exact List.getElem_zipWith (h := by simp; omega)
  · norm_num [calculate_ndvi, ndviEps]

/-- Claim C4: stacking single-band rasters of identical shape yields an output whose
band k is input k's band, with metadata taken from the first input and the count set
to the number of inputs; and stacking any sequence containing a band whose shape
differs from the first input's profile is the fatal ShapeMismatch error, never a
silent re-alignment. -/
theorem stack_identical_shapes (first : SrcRaster) (rest : List SrcRaster)
    (hsingle : ∀ s ∈ first :: rest, s.bands.length = 1 ∧
      hasShape (s.bands.headD []) first.meta.height first.meta.width) :
    (∃ out : SrcRaster,
      stack_rasters (first :: rest) = Except.ok out ∧
      out.meta = { first.meta with count := (first :: rest).length } ∧
      out.bands.length = (first :: rest).length ∧
      ∀ k, k < (first :: rest).length →
        out.bands.getD k [] = ((first :: rest).getD k first).bands.headD []) ∧
    (∀ (f2 : SrcRaster) (r2 : List SrcRaster),
      (∃ s ∈ f2 :: r2, ¬ hasShape (s.bands.headD []) f2.meta.height f2.meta.width) →
      stack_rasters (f2 :: r2) = Except.error StackErr.shapeMismatch) := by
  constructor
  · refine ⟨_, stack_rasters_ok first rest (fun s hs => (hsingle s hs).2), rfl, by simp, ?_⟩
    intro k hk
    have hk2 : k < ((first :: rest).map (fun s => s.bands.headD [])).length := by
      simp only [List.length_map]; exact hk
    simp only []
    rw [List.getD_eq_getElem _ _ hk2, List.getElem_map,
      List.getD_eq_getElem _ _ (by omega : k < (first :: rest).length)]
  · intro f2 r2 hbad
    exact stack_rasters_mismatch f2 r2 hbad

/-- Claim C10: stack_rasters reads only band 1 of each input. The output has exactly
one band per input, band k being input k's band 1, and the result is unchanged when
every band beyond band 1 of every input is removed, so extra bands are silently
dropped from the stack. -/
theorem stack_first_band_only (first : SrcRaster) (rest : List SrcRaster)
    (hfit : ∀ s ∈ first :: rest,
      hasShape (s.bands.headD []) first.meta.height first.meta.width) :
    ∃ out : SrcRaster,
      stack_rasters (first :: rest) = Except.ok out ∧
      out.bands.length = (first :: rest).length ∧
      (∀ k, k < (first :: rest).length →
        out.bands.getD k [] = ((first :: rest).getD k first).bands.headD []) ∧
      stack_rasters ((first :: rest).map (fun s => { s with bands := [s.bands.headD []] }))
        = Except.ok out := by
  refine ⟨_, stack_rasters_ok first rest hfit, by simp, ?_, ?_⟩
  · intro k hk
    have hk2 : k < ((first :: rest).map (fun s => s.bands.headD [])).length := by
      simp only [List.length_map]; exact hk
    simp only []
    rw [List.getD_eq_getElem _ _ hk2, List.getElem_map,
      List.getD_eq_getElem _ _ (by omega : k < (first :: rest).length)]
  · have hmap : (first :: rest).map (fun s => { s with bands := [s.bands.headD []] })
        = { first with bands := [first.bands.headD []] }
          :: rest.map (fun s => ({ s with bands := [s.bands.headD []] } : SrcRaster)) := by
      simp
    rw [hmap]
    rw [stack_rasters_ok]
    · simp [List.map_map, Function.comp]
    · intro s hs
      rcases List.mem_cons.mp hs with h | h
      · subst h
        simpa using hfit first (List.mem_cons_self _ _)
      · obtain ⟨t, ht, rfl⟩ := List.mem_map.mp h
        simpa using hfit t (List.mem_cons_of_mem _ ht)

/-- Witness for the NDVI claim at RED = 100, NIR = 200 on a 1 by 1 grid. -/
theorem ndvi_formula_witness :
    gridGet (calculate_ndvi [[100]] [[200]]) 0 0
      = (gridGet [[200]] 0 0 - gridGet [[100]] 0 0)
        / (gridGet [[200]] 0 0 + gridGet [[100]] 0 0 + ndviEps) ∧
    calculate_ndvi [[0]] [[0]] = [[0]] :=
  ndvi_formula [[100]] [[200]] 1 1 0 0 (by decide) (by decide) (by decide) (by decide)

/-- A 1 by 1 single-band raster used by the stacking witnesses. -/
def wRasterA : SrcRaster :=
  { meta := { height := 1, width := 1, count := 1, crs := "EPSG:32643" }
    bands := [[[1]]] }

/-- Another 1 by 1 single-band raster used by the stacking witnesses. -/
def wRasterB : SrcRaster :=
  { meta := { height := 1, width := 1, count := 1, crs := "EPSG:32643" }
    bands := [[[2]]] }

/-- A 1 by 1 three-band raster used by the band-dropping witness. -/
def wRasterC : SrcRaster :=
  { meta := { height := 1, width := 1, count := 3, crs := "EPSG:32643" }
    bands := [[[1]], [[9]], [[8]]] }

/-- Witness for the stacking claim on two concrete single-band rasters. -/
theorem stack_identical_shapes_witness :
    (∃ out : SrcRaster,
      stack_rasters (wRasterA :: [wRasterB]) = Except.ok out ∧
      out.meta = { wRasterA.meta with count := (wRasterA :: [wRasterB]).length } ∧
      out.bands.length = (wRasterA :: [wRasterB]).length ∧
      ∀ k, k < (wRasterA :: [wRasterB]).length →
        out.bands.getD k [] = ((wRasterA :: [wRasterB]).getD k wRasterA).bands.headD []) ∧
    (∀ (f2 : SrcRaster) (r2 : List SrcRaster),
      (∃ s ∈ f2 :: r2, ¬ hasShape (s.bands.headD []) f2.meta.height f2.meta.width) →
      stack_rasters (f2 :: r2) = Except.error StackErr.shapeMismatch) :=
  stack_identical_shapes wRasterA [wRasterB] (by decide)

/-- Witness for the band-dropping claim: one input with three bands, one with one band. -/
theorem stack_first_band_only_witness :
    ∃ out : SrcRaster,
      stack_rasters (wRasterC :: [wRasterB]) = Except.ok out ∧
      out.bands.length = (wRasterC :: [wRasterB]).length ∧
      (∀ k, k < (wRasterC :: [wRasterB]).length →
        out.bands.getD k [] = ((wRasterC :: [wRasterB]).getD k wRasterC).bands.headD []) ∧
      stack_rasters ((wRasterC :: [wRasterB]).map (fun s => { s with bands := [s.bands.headD []] }))
        = Except.ok out :=
  stack_first_band_only wRasterC [wRasterB] (by decide)

/-- A rectangular pixel window of a raster: column and row offsets plus width and height,
as in a rasterio Window(col_off, row_off, width, height). -/
structure Win where
  col : ℕ
  row : ℕ
  w : ℕ
  h : ℕ
deriving DecidableEq, Repr

/-- Python range(0, stop, step) for a positive step. -/
def rangeStep (stop step : ℕ) : List ℕ :=
  (List.range ((stop + step - 1) / step)).map (fun k => k * step)

/-- Embedding of the tile loop of sent-1_croper.py crop_and_save (edge policy A, clamp):
offsets run over range(0, extent, tile_size) in each dimension and the last tile is
shrunk to min(tile_size, extent - offset). -/
def tilesA (width height ts : ℕ) : List Win :=
  (rangeStep width ts).flatMap (fun i =>
    (rangeStep height ts).map (fun j =>
      { col := i, row := j, w := min ts (width - i), h := min ts (height - j) }))

/-- Embedding of tif_cropper.py crop_image_slice (edge policy B, truncate): only the
extent divided by the tile size full tiles per dimension are emitted, the remainder
strip is dropped. -/
def tilesB (height width ts : ℕ) : List Win :=
  (List.range (height / ts)).flatMap (fun yb =>
    (List.range (width / ts)).map (fun xb =>
      { col := xb * ts, row := yb * ts, w := ts, h := ts }))

/-- Pixel membership in a window: column in the half-open column span and row in the
half-open row span. -/
def winContains (t : Win) (x y : ℕ) : Prop :=
  t.col ≤ x ∧ x < t.col + t.w ∧ t.row ≤ y ∧ y < t.row + t.h

instance (t : Win) (x y : ℕ) : Decidable (winContains t x y) := by
  unfold winContains; infer_instance

/-- Counting over a flatMap is the sum of the counts over each piece. -/
lemma countP_flatMap {α β : Type} (l : List α) (f : α → List β) (p : β → Bool) :
    (l.flatMap f).countP p = (l.map (fun a => (f a).countP p)).sum := by
  induction l with
  | nil => rfl
  | cons a t ih => simp [List.flatMap_cons, List.countP_append, ih]

/-- The length of a flatMap is the sum of the lengths of the pieces. -/
lemma length_flatMap {α β : Type} (l : List α) (f : α → List β) :
    (l.flatMap f).length = (l.map (fun a => (f a).length)).sum := by
  induction l with
  | nil => rfl
  | cons a t ih => simp [List.flatMap_cons, ih]

/-- Summing an indicator over a list counts the satisfying elements. -/
lemma sum_map_ite {α : Type} (l : List α) (p : α → Prop) [DecidablePred p] :
    (l.map (fun a => if p a then 1 else 0)).sum = l.countP (fun a => decide (p a)) := by
  induction l with
  | nil => rfl
  | cons a t ih =>
    by_cases hpa : p a
    · simp [List.countP_cons, hpa, ih]; omega
    · simp [List.countP_cons, hpa, ih]

/-- Summing a constant over a range multiplies it by the length. -/
lemma sum_map_const_range (n c : ℕ) : ((List.range n).map (fun _ => c)).sum = n * c := by
  induction n with
  | zero => simp
  | succ m ih => rw [List.range_succ]; simp [ih]; ring

/-- A predicate true at exactly one point below n is counted once over range n. -/
lemma countP_range_unique (n k0 : ℕ) (p : ℕ → Bool) (h0 : k0 < n)
    (hp : ∀ k, k < n → (p k = true ↔ k = k0)) : (List.range n).countP p = 1 := by
  induction n with
  | zero => omega
  | succ m ih =>
    rw [List.range_succ, List.countP_append]
    rcases Nat.lt_or_ge k0 m with hk0 | hk0
    · have h1 : (List.range m).countP p = 1 :=
        ih hk0 (fun k hk => hp k (Nat.lt_succ_of_lt hk))
      have h2 : p m = false := by
        rcases Bool.eq_false_or_eq_true (p m) with h | h
        · exact absurd ((hp m (Nat.lt_succ_self m)).mp h) (by omega)
        · exact h
      simp [h1, h2]
    · have hk0m : k0 = m := by omega
      have h2 : p m = true := (hp m (Nat.lt_succ_self m)).mpr hk0m.symm
      have h1 : (List.range m).countP p = 0 := by
        refine List.countP_eq_zero.mpr (fun k hk => ?_)
        have hkm : k < m := List.mem_range.mp hk
        intro hpk
        have := (hp k (Nat.lt_succ_of_lt hkm)).mp hpk
        omega
      simp [h1, h2]

/-- Membership bound for the ceiling-division range used by rangeStep. -/
lemma lt_ceil_iff (stop ts k : ℕ) (hts : 0 < ts) :
    k < (stop + ts - 1) / ts ↔ k * ts < stop := by
  rw [Nat.lt_iff_add_one_le, Nat.le_div_iff_mul_le hts]
  have h : (k + 1) * ts = k * ts + ts := by ring
  rw [h]
  generalize k * ts = a
  omega

/-- One-dimensional clamp tiling covers each in-range coordinate exactly once: over the
offsets of range(0, stop, ts), exactly one offset i satisfies i <= x < i + min ts (stop - i). -/
lemma cover1D (stop ts x : ℕ) (hts : 0 < ts) (hx : x < stop) :
    (rangeStep stop ts).countP (fun i => decide (i ≤ x ∧ x < i + min ts (stop - i))) = 1 := by
  unfold rangeStep
  rw [List.countP_map]
  refine countP_range_unique _ (x / ts) _ ?_ ?_
  · exact (lt_ceil_iff stop ts (x / ts) hts).mpr
      (Nat.lt_of_le_of_lt (Nat.div_mul_le_self x ts) hx)
  · intro k hk
    have hkts : k * ts < stop := (lt_ceil_iff stop ts k hts).mp hk
    simp only [Function.comp, decide_eq_true_eq]
    constructor
    · rintro ⟨h1, h2⟩
      have h3 : x < k * ts + ts :=
        Nat.lt_of_lt_of_le h2 (Nat.add_le_add_left (Nat.min_le_left _ _) _)
      exact (Nat.div_eq_of_lt_le h1 (by rw [Nat.succ_mul]; exact h3)).symm
    · rintro rfl
      refine ⟨Nat.div_mul_le_self x ts, ?_⟩
      have hmod := Nat.div_add_mod' x ts
      have hlt := Nat.mod_lt x hts
      have hle : x / ts * ts ≤ x := Nat.div_mul_le_self x ts
      omega

/-- Offsets produced by range(0, stop, ts) are exactly the multiples of ts below stop. -/
lemma mem_rangeStep {stop ts i : ℕ} (hts : 0 < ts) :
    i ∈ rangeStep stop ts ↔ ∃ k, k * ts < stop ∧ i = k * ts := by
  unfold rangeStep
  simp only [List.mem_map, List.mem_range]
  constructor
  · rintro ⟨k, hk, rfl⟩
    exact ⟨k, (lt_ceil_iff stop ts k hts).mp hk, rfl⟩
  · rintro ⟨k, hk, rfl⟩
    exact ⟨k, (lt_ceil_iff stop ts k hts).mpr hk, rfl⟩

/-- Claim C3: with a positive tile size, the clamp policy of sent-1_croper.py emits
windows that stay inside the raster and cover every pixel exactly once (an exact
cover with no overlap and no gap), while the truncate policy of tif_cropper.py emits
exactly height / ts times width / ts full ts by ts windows inside the raster, whose
union covers exactly the pixels below (width / ts) * ts and (height / ts) * ts, the
remainder strip being dropped. -/
theorem tiling_policies (width height ts : ℕ) (hts : 0 < ts) :
    (∀ t ∈ tilesA width height ts, t.col + t.w ≤ width ∧ t.row + t.h ≤ height) ∧
    (∀ x y, x < width → y < height →
      (tilesA width height ts).countP (fun t => decide (winContains t x y)) = 1) ∧
    (tilesB height width ts).length = (height / ts) * (width / ts) ∧
    (∀ t ∈ tilesB height width ts,
      t.w = ts ∧ t.h = ts ∧ t.col + ts ≤ width ∧ t.row + ts ≤ height) ∧
    (∀ x y, (∃ t ∈ tilesB height width ts, winContains t x y) ↔
      (x < width / ts * ts ∧ y < height / ts * ts)) := by
  refine ⟨?_, ?_, ?_, ?_, ?_⟩
  · intro t ht
    rcases List.mem_flatMap.mp ht with ⟨i, hi, hmem⟩
    rcases List.mem_map.mp hmem with ⟨j, hj, rfl⟩
    rcases (mem_rangeStep hts).mp hi with ⟨k, hk, rfl⟩
    rcases (mem_rangeStep hts).mp hj with ⟨m, hm, rfl⟩
    simp only []
    omega
  · intro x y hx hy
    unfold tilesA
    rw [countP_flatMap]
    have hrow : ∀ i ∈ rangeStep width ts,
        ((rangeStep height ts).map (fun j =>
          Win.mk i j (min ts (width - i)) (min ts (height - j)))).countP
            (fun t => decide (winContains t x y))
          = (fun i => if i ≤ x ∧ x < i + min ts (width - i) then 1 else 0) i := by
      intro i _
      rw [List.countP_map]
      by_cases hc : i ≤ x ∧ x < i + min ts (width - i)
      · simp only [hc, if_pos, and_self, if_true]
        rw [← cover1D height ts y hts hy]
        refine List.countP_congr (fun j hj => ?_)
        simp only [Function.comp, winContains, decide_eq_true_eq]
        constructor
        · rintro ⟨h1, h2, h3, h4⟩
          exact ⟨h3, h4⟩
        · rintro ⟨h3, h4⟩
          exact ⟨hc.1, hc.2, h3, h4⟩
      · simp only [hc, if_false]
        refine List.countP_eq_zero.mpr (fun j hj => ?_)
        simp only [Function.comp, winContains, decide_eq_true_eq]
        rintro ⟨h1, h2, h3, h4⟩
        exact hc ⟨h1, h2⟩
    rw [List.map_congr_left hrow]
    rw [sum_map_ite (rangeStep width ts) (fun i => i ≤ x ∧ x < i + min ts (width - i))]
    exact cover1D width ts x hts hx
  · unfold tilesB
    rw [length_flatMap]
    have h1 : ((List.range (height / ts)).map (fun yb =>
        ((List.range (width / ts)).map (fun xb =>
          Win.mk (xb * ts) (yb * ts) ts ts)).length))
        = (List.range (height / ts)).map (fun _ => width / ts) :=
      List.map_congr_left (fun a _ => by simp)
    rw [h1, sum_map_const_range]
  · intro t ht
    rcases List.mem_flatMap.mp ht with ⟨yb, hyb, hmem⟩
    rcases List.mem_map.mp hmem with ⟨xb, hxb, rfl⟩
    have hyb2 : yb < height / ts := List.mem_range.mp hyb
    have hxb2 : xb < width / ts := List.mem_range.mp hxb
    have h1 : (xb + 1) * ts ≤ width / ts * ts := Nat.mul_le_mul_right ts (by omega)
    have h2 : (yb + 1) * ts ≤ height / ts * ts := Nat.mul_le_mul_right ts (by omega)
    have h3 := Nat.div_mul_le_self width ts
    have h4 := Nat.div_mul_le_self height ts
    rw [Nat.succ_mul] at h1 h2
    refine ⟨rfl, rfl, ?_, ?_⟩
    · show xb * ts + ts ≤ width
      omega
    · show yb * ts + ts ≤ height
      omega
  · intro x y
    constructor
    · rintro ⟨t, ht, hc⟩
      rcases List.mem_flatMap.mp ht with ⟨yb, hyb, hmem⟩
      rcases List.mem_map.mp hmem with ⟨xb, hxb, rfl⟩
      have hyb2 : yb < height / ts := List.mem_range.mp hyb
      have hxb2 : xb < width / ts := List.mem_range.mp hxb
      have h1 : (xb + 1) * ts ≤ width / ts * ts := Nat.mul_le_mul_right ts (by omega)
      have h2 : (yb + 1) * ts ≤ height / ts * ts := Nat.mul_le_mul_right ts (by omega)
      rw [Nat.succ_mul] at h1 h2
      have hcx : x < xb * ts + ts := hc.2.1
      have hcy : y < yb * ts + ts := hc.2.2.2
      omega
    · rintro ⟨hx2, hy2⟩
      have hxb : x / ts < width / ts := by
        by_contra hcon
        push_neg at hcon
        have h1 := Nat.mul_le_mul_right ts hcon
        have h2 := Nat.div_mul_le_self x ts
        omega
      have hyb : y / ts < height / ts := by
        by_contra hcon
        push_neg at hcon
        have h1 := Nat.mul_le_mul_right ts hcon
        have h2 := Nat.div_mul_le_self y ts
        omega
      refine ⟨Win.mk (x / ts * ts) (y / ts * ts) ts ts, ?_, ?_⟩
      · exact List.mem_flatMap.mpr ⟨y / ts, List.mem_range.mpr hyb,
          List.mem_map.mpr ⟨x / ts, List.mem_range.mpr hxb, rfl⟩⟩
      · have hm1 := Nat.div_add_mod' x ts
        have hm2 := Nat.div_add_mod' y ts
        have hl1 := Nat.mod_lt x hts
        have hl2 := Nat.mod_lt y hts
        show x / ts * ts ≤ x ∧ x < x / ts * ts + ts ∧ y / ts * ts ≤ y ∧ y < y / ts * ts + ts
        exact ⟨Nat.div_mul_le_self x ts, by omega, Nat.div_mul_le_self y ts, by omega⟩

/-- Witness for the tiling claim at width 5, height 3, tile size 2. -/
theorem tiling_policies_witness :
    (∀ t ∈ tilesA 5 3 2, t.col + t.w ≤ 5 ∧ t.row + t.h ≤ 3) ∧
    (∀ x y, x < 5 → y < 3 →
      (tilesA 5 3 2).countP (fun t => decide (winContains t x y)) = 1) ∧
    (tilesB 3 5 2).length = (3 / 2) * (5 / 2) ∧
    (∀ t ∈ tilesB 3 5 2, t.w = 2 ∧ t.h = 2 ∧ t.col + 2 ≤ 5 ∧ t.row + 2 ≤ 3) ∧
    (∀ x y, (∃ t ∈ tilesB 3 5 2, winContains t x y) ↔
      (x < 5 / 2 * 2 ∧ y < 3 / 2 * 2)) :=
  tiling_policies 5 3 2 (by decide)

/-- The two bands of the required set whose native resolution tier is 20m, per the
resolution map of ndvi_savi_swir.py. -/
def is20m (b : String) : Bool := b == "B11" || b == "B12"

/-- A band source file as rasterio exposes it: its native pixel dimensions, its samples
and its metadata. -/
structure BandFile where
  height : ℕ
  width : ℕ
  data : Grid
  meta : RMeta

/-- Index clamping into the valid row or column range, negative positions going to 0. -/
def clampIdx (z : ℤ) (n : ℕ) : ℕ := min z.toNat (n - 1)

/-- Bilinear interpolation of a source grid at a fractional sample position, with
edge clamping, as used when rasterio reads a band at a larger out_shape. -/
def bilinearSample (g : Grid) (h w : ℕ) (sy sx : ℚ) : ℚ :=
  let y0 : ℤ := ⌊sy⌋
  let x0 : ℤ := ⌊sx⌋
  let fy : ℚ := sy - y0
  let fx : ℚ := sx - x0
  let p00 := gridGet g (clampIdx y0 h) (clampIdx x0 w)
  let p01 := gridGet g (clampIdx y0 h) (clampIdx (x0 + 1) w)
  let p10 := gridGet g (clampIdx (y0 + 1) h) (clampIdx x0 w)
  let p11 := gridGet g (clampIdx (y0 + 1) h) (clampIdx (x0 + 1) w)
  (1 - fy) * ((1 - fx) * p00 + fx * p01) + fy * ((1 - fx) * p10 + fx * p11)

/-- Bilinear resampling of a grid to a requested output shape, with pixel-center
coordinate mapping between the source and output grids. -/
def resampleBilinear (g : Grid) (srcH srcW outH outW : ℕ) : Grid :=
  (List.range outH).map (fun (i : ℕ) =>
    (List.range outW).map (fun (j : ℕ) =>
      bilinearSample g srcH srcW
        (((i : ℚ) + 1 / 2) * srcH / outH - 1 / 2)
        (((j : ℚ) + 1 / 2) * srcW / outW - 1 / 2)))

/-- Resampling always produces exactly the requested output shape. -/
lemma resample_shape (g : Grid) (sh sw oh ow : ℕ) :
    hasShape (resampleBilinear g sh sw oh ow) oh ow := by
  constructor
  · simp only [resampleBilinear, List.length_map, List.length_range]
  · intro row hrow
    simp only [resampleBilinear] at hrow
    rcases List.mem_map.mp hrow with ⟨i, hi, rfl⟩
    simp only [List.length_map, List.length_range]

/-- The required band identifiers of Sentinel2Processor.load_bands, in load order. -/
def required_bands : List String := ["B02", "B03", "B04", "B08", "B11", "B12"]

/-- Loading one band: a 20m band is resampled to twice its actual source dimensions
with bilinear interpolation (target_shape = (src.height * 2, src.width * 2)), a 10m
band is read unchanged. -/
def load_band_data (src : String → BandFile) (b : String) : Grid :=
  if is20m b then
    resampleBilinear (src b).data (src b).height (src b).width
      ((src b).height * 2) ((src b).width * 2)
  else (src b).data

/-- Embedding of Sentinel2Processor.load_bands: every required band is loaded in
order, 20m bands resampled, and the metadata of the whole set is taken from the
reference band B04. -/
def load_bands (src : String → BandFile) : List (String × Grid) × RMeta :=
  (required_bands.map (fun b => (b, load_band_data src b)), (src "B04").meta)

/-- Claim C6: when the 10m bands share the reference shape and the 20m bands have
half those dimensions, every band of the loaded set ends with the same grid shape,
that shape is the native shape of the reference band B04, the 20m bands having been
brought there by bilinear resampling at a factor computed from their actual source
dimensions, and the metadata of the set is B04's. -/
theorem load_bands_harmonized (src : String → BandFile) (h w : ℕ)
    (h10 : ∀ b ∈ ["B02", "B03", "B04", "B08"], hasShape (src b).data h w)
    (h20 : ∀ b ∈ ["B11", "B12"], (src b).height * 2 = h ∧ (src b).width * 2 = w) :
    (∀ p ∈ (load_bands src).1, hasShape p.2 h w) ∧
    hasShape (src "B04").data h w ∧
    (load_bands src).2 = (src "B04").meta := by
  refine ⟨?_, h10 "B04" (by simp), rfl⟩
  intro p hp
  rcases List.mem_map.mp hp with ⟨b, hb, rfl⟩
  simp only [required_bands, List.mem_cons, List.not_mem_nil, or_false] at hb
  rcases hb with rfl | rfl | rfl | rfl | rfl | rfl
  · exact h10 "B02" (by simp)
  · exact h10 "B03" (by simp)
  · exact h10 "B04" (by simp)
  · exact h10 "B08" (by simp)
  · obtain ⟨hh, hw⟩ := h20 "B11" (by simp)
    rw [← hh, ← hw]
    exact resample_shape (src "B11").data (src "B11").height (src "B11").width _ _
  · obtain ⟨hh, hw⟩ := h20 "B12" (by simp)
    rw [← hh, ← hw]
    exact resample_shape (src "B12").data (src "B12").height (src "B12").width _ _

/-- A concrete 10m band file of shape 2 by 2. -/
def wBand10 : BandFile :=
  { height := 2, width := 2, data := [[1, 2], [3, 4]]
    meta := { height := 2, width := 2, count := 1, crs := "EPSG:32643" } }

/-- A concrete 20m band file of shape 1 by 1, half the 10m dimensions. -/
def wBand20 : BandFile :=
  { height := 1, width := 1, data := [[3]]
    meta := { height := 1, width := 1, count := 1, crs := "EPSG:32643" } }

/-- A concrete band source: 20m identifiers resolve to the coarse file, the rest to
the fine file. -/
def wSrc : String → BandFile := fun b => if is20m b then wBand20 else wBand10

/-- Witness for the harmonization claim on the concrete band source. -/
theorem load_bands_harmonized_witness :
    (∀ p ∈ (load_bands wSrc).1, hasShape p.2 2 2) ∧
    hasShape (wSrc "B04").data 2 2 ∧
    (load_bands wSrc).2 = (wSrc "B04").meta :=
  load_bands_harmonized wSrc 2 2 (by decide) (by decide)

/-- An axis-aligned bounding box in a common reference CRS, as built by shapely box()
from raster bounds transformed to WGS84. -/
structure Box where
  minx : ℚ
  miny : ℚ
  maxx : ℚ
  maxy : ℚ
deriving DecidableEq, Repr

/-- Geometric intersection of two axis-aligned boxes. -/
def interBox (a b : Box) : Box :=
  { minx := max a.minx b.minx, miny := max a.miny b.miny
    maxx := min a.maxx b.maxx, maxy := min a.maxy b.maxy }

/-- Emptiness of a box intersection, shapely style: the geometry is empty exactly when
the spans are strictly inverted (boxes that merely touch intersect in a degenerate,
non-empty geometry). -/
def boxEmpty (a : Box) : Bool :=
  decide (a.maxx < a.minx) || decide (a.maxy < a.miny)

/-- Outcome of crop_to_overlap in the Sentinel subsetting script: either no overlapping
region was found and cropping is skipped, or the overlap box drives both crops. -/
inductive OverlapOutcome where
  | empty
  | cropped (ov : Box)
deriving DecidableEq, Repr

/-- Embedding of crop_to_overlap: intersect the two WGS84 bounding boxes; when the
intersection is empty, report that no overlapping region was found and return without
cropping either image (a normal return, not a raised error); otherwise crop both with
the overlap geometry. -/
def crop_to_overlap (s1 s2 : Box) : OverlapOutcome :=
  if boxEmpty (interBox s1 s2) then OverlapOutcome.empty
  else OverlapOutcome.cropped (interBox s1 s2)

/-- Point membership in a closed axis-aligned box. -/
def pointInBox (b : Box) (px py : ℚ) : Prop :=
  b.minx ≤ px ∧ px ≤ b.maxx ∧ b.miny ≤ py ∧ py ≤ b.maxy

/-- Two boxes are disjoint when no point lies in both. -/
def disjointBoxes (a b : Box) : Prop :=
  ∀ px py : ℚ, ¬ (pointInBox a px py ∧ pointInBox b px py)

/-- Claim C7: for bounding boxes that are disjoint in the reference CRS, the overlap
operation returns the empty outcome, so downstream clipping is skipped for the pair
as a normal non-fatal result. -/
theorem overlap_disjoint_empty (a b : Box) (hd : disjointBoxes a b) :
    crop_to_overlap a b = OverlapOutcome.empty := by
  have hempty : boxEmpty (interBox a b) = true := by
    by_contra hne
    have hfalse : boxEmpty (interBox a b) = false := by
      rcases Bool.eq_false_or_eq_true (boxEmpty (interBox a b)) with h | h
      · exact absurd h hne
      · exact h
    simp only [boxEmpty, interBox, Bool.or_eq_false_iff,
      decide_eq_false_iff_not, not_lt] at hfalse
    obtain ⟨hx, hy⟩ := hfalse
    refine hd (max a.minx b.minx) (max a.miny b.miny)
      ⟨⟨le_max_left _ _, le_trans hx (min_le_left _ _),
        le_max_left _ _, le_trans hy (min_le_left _ _)⟩,
       ⟨le_max_right _ _, le_trans hx (min_le_right _ _),
        le_max_right _ _, le_trans hy (min_le_right _ _)⟩⟩
  simp only [crop_to_overlap]
  rw [hempty]
  simp

/-- A unit box far from c7boxB, used by the overlap witness. -/
def c7boxA : Box := { minx := 0, miny := 0, maxx := 1, maxy := 1 }

/-- A unit box far from c7boxA, used by the overlap witness. -/
def c7boxB : Box := { minx := 2, miny := 2, maxx := 3, maxy := 3 }

/-- Witness for the disjoint-overlap claim on two concrete separated boxes. -/
theorem overlap_disjoint_empty_witness :
    crop_to_overlap c7boxA c7boxB = OverlapOutcome.empty :=
  overlap_disjoint_empty c7boxA c7boxB (by
    intro px py hp
    have h2 : px ≤ (1 : ℚ) := hp.1.2.1
    have h5 : (2 : ℚ) ≤ px := hp.2.1
    have hcon : ¬ ((2 : ℚ) ≤ 1) := by norm_num
    exact hcon (le_trans h5 h2))

/-- A vector feature: its polygon approximated by its bounding box, plus an optional
name attribute, as one row of the shapefile read by clip_with_shapefile. -/
structure Feat where
  geom : Box
  name : Option String
deriving DecidableEq, Repr

/-- Embedding of rasterio.mask on a feature geometry: a geometry disjoint from the
raster raises a ValueError saying the shapes do not overlap, otherwise the raster is
cropped to the geometry. -/
def maskClip (raster : Box) (g : Box) : Except String Box :=
  if boxEmpty (interBox raster g) then
    Except.error "Input shapes do not overlap raster."
  else Except.ok (interBox raster g)

/-- Name used for a feature in output file names: the name attribute when present,
otherwise the generated fallback of glacier_ followed by the positional index, as in
clip_with_shapefile of clip sentinel tif.py. -/
def featName (f : Feat) (idx : ℕ) : String :=
  match f.name with
  | some n => n
  | none => "glacier_" ++ toString idx

/-- Output file name for one clipped feature: original base name, feature name, then
the timestamp, joined with underscores. -/
def outName (base nm ts : String) : String :=
  base ++ "_" ++ nm ++ "_" ++ ts ++ ".tif"

/-- Embedding of the feature loop of clip_with_shapefile, carrying the enumeration
index: each feature is masked independently; success emits one named output, failure
records a warning and the loop continues with the next feature. -/
def clipGo (raster : Box) (base ts : String) :
    ℕ → List Feat → List (String × Box) × List String
  | _, [] => ([], [])
  | idx, f :: fs =>
    match maskClip raster f.geom with
    | Except.ok img =>
      ((outName base (featName f idx) ts, img) :: (clipGo raster base ts (idx + 1) fs).1,
        (clipGo raster base ts (idx + 1) fs).2)
    | Except.error e =>
      ((clipGo raster base ts (idx + 1) fs).1,
        ("Error processing " ++ featName f idx ++ ": " ++ e)
          :: (clipGo raster base ts (idx + 1) fs).2)

/-- Embedding of clip_with_shapefile: process the whole feature list from index 0,
returning the emitted outputs and the recorded warnings. -/
def clip_with_shapefile (raster : Box) (base ts : String) (fs : List Feat) :
    List (String × Box) × List String :=
  clipGo raster base ts 0 fs

/-- Step equation of clipGo on the empty feature list. -/
lemma clipGo_nil (raster : Box) (base ts : String) (idx : ℕ) :
    clipGo raster base ts idx [] = ([], []) := rfl

/-- Step equation of clipGo when masking the head feature succeeds. -/
lemma clipGo_cons_ok (raster : Box) (base ts : String) (idx : ℕ) (f : Feat)
    (fs : List Feat) (img : Box) (hok : maskClip raster f.geom = Except.ok img) :
    clipGo raster base ts idx (f :: fs)
      = ((outName base (featName f idx) ts, img) :: (clipGo raster base ts (idx + 1) fs).1,
          (clipGo raster base ts (idx + 1) fs).2) := by
  show (match maskClip raster f.geom with
    | Except.ok img =>
      ((outName base (featName f idx) ts, img) :: (clipGo raster base ts (idx + 1) fs).1,
        (clipGo raster base ts (idx + 1) fs).2)
    | Except.error e =>
      ((clipGo raster base ts (idx + 1) fs).1,
        ("Error processing " ++ featName f idx ++ ": " ++ e)
          :: (clipGo raster base ts (idx + 1) fs).2)) = _
  rw [hok]

/-- Step equation of clipGo when masking the head feature raises. -/
lemma clipGo_cons_err (raster : Box) (base ts : String) (idx : ℕ) (f : Feat)
    (fs : List Feat) (e : String) (herr : maskClip raster f.geom = Except.error e) :
    clipGo raster base ts idx (f :: fs)
      = ((clipGo raster base ts (idx + 1) fs).1,
          ("Error processing " ++ featName f idx ++ ": " ++ e)
            :: (clipGo raster base ts (idx + 1) fs).2) := by
  show (match maskClip raster f.geom with
    | Except.ok img =>
      ((outName base (featName f idx) ts, img) :: (clipGo raster base ts (idx + 1) fs).1,
        (clipGo raster base ts (idx + 1) fs).2)
    | Except.error e =>
      ((clipGo raster base ts (idx + 1) fs).1,
        ("Error processing " ++ featName f idx ++ ": " ++ e)
          :: (clipGo raster base ts (idx + 1) fs).2)) = _
  rw [herr]

/-- Claim C8: a feature whose masking raises is skipped: it contributes no output, a
warning naming it is recorded, and every feature after it is processed exactly as it
otherwise would be (with its original enumeration index), so one bad feature never
aborts the batch. -/
theorem clip_skips_bad_feature (raster : Box) (base ts : String) (xs ys : List Feat)
    (f : Feat) (msg : String) (hf : maskClip raster f.geom = Except.error msg) (i : ℕ) :
    (clipGo raster base ts i (xs ++ f :: ys)).1
      = (clipGo raster base ts i xs).1
        ++ (clipGo raster base ts (i + xs.length + 1) ys).1 ∧
    (clipGo raster base ts i (xs ++ f :: ys)).2
      = (clipGo raster base ts i xs).2
        ++ ("Error processing " ++ featName f (i + xs.length) ++ ": " ++ msg)
          :: (clipGo raster base ts (i + xs.length + 1) ys).2 := by
  induction xs generalizing i with
  | nil =>
    rw [List.nil_append, clipGo_cons_err raster base ts i f ys msg hf, clipGo_nil]
    simp
  | cons a t ih =>
    rw [List.cons_append]
    have harith : i + 1 + t.length = i + (a :: t).length := by simp; omega
    cases hma : maskClip raster a.geom with
    | ok img =>
      rw [clipGo_cons_ok raster base ts i a (t ++ f :: ys) img hma,
        clipGo_cons_ok raster base ts i a t img hma]
      have h1 := (ih (i + 1)).1
      have h2 := (ih (i + 1)).2
      rw [harith] at h1 h2
      refine ⟨?_, ?_⟩
      · simp [h1]
      · simp [h2]
    | error e =>
      rw [clipGo_cons_err raster base ts i a (t ++ f :: ys) e hma,
        clipGo_cons_err raster base ts i a t e hma]
      have h1 := (ih (i + 1)).1
      have h2 := (ih (i + 1)).2
      rw [harith] at h1 h2
      refine ⟨?_, ?_⟩
      · simp [h1]
      · simp [h2]

/-- The raster extent used by the clipping witnesses. -/
def c9raster : Box := { minx := 0, miny := 0, maxx := 10, maxy := 10 }

/-- An unnamed feature inside the raster, used by the fallback-name theorems. -/
def c9feat : Feat := { geom := { minx := 1, miny := 1, maxx := 2, maxy := 2 }, name := none }

/-- A named feature inside the raster, before the bad one in the clipping witness. -/
def c8good1 : Feat := { geom := { minx := 1, miny := 1, maxx := 2, maxy := 2 }, name := some "a" }

/-- A feature entirely outside the raster, whose masking errors. -/
def c8bad : Feat := { geom := { minx := 20, miny := 20, maxx := 21, maxy := 21 }, name := none }

/-- A named feature inside the raster, after the bad one in the clipping witness. -/
def c8good2 : Feat := { geom := { minx := 3, miny := 3, maxx := 4, maxy := 4 }, name := some "b" }

/-- Witness for the skip claim: a good feature, a bad one, a good one. -/
theorem clip_skips_bad_feature_witness :
    (clipGo c9raster "img" "20210615" 0 ([c8good1] ++ c8bad :: [c8good2])).1
      = (clipGo c9raster "img" "20210615" 0 [c8good1]).1
        ++ (clipGo c9raster "img" "20210615" (0 + [c8good1].length + 1) [c8good2]).1 ∧
    (clipGo c9raster "img" "20210615" 0 ([c8good1] ++ c8bad :: [c8good2])).2
      = (clipGo c9raster "img" "20210615" 0 [c8good1]).2
        ++ ("Error processing " ++ featName c8bad (0 + [c8good1].length)
            ++ ": " ++ "Input shapes do not overlap raster.")
          :: (clipGo c9raster "img" "20210615" (0 + [c8good1].length + 1) [c8good2]).2 :=
  clip_skips_bad_feature c9raster "img" "20210615" [c8good1] [c8good2] c8bad
    "Input shapes do not overlap raster." (by rfl) 0

/-- Claim C9 counterexample: the feature at index 0 has no name attribute, and the
emitted output name uses the fallback glacier_0, not feature_0 as the claim states. -/
theorem clip_fallback_counterexample :
    (clip_with_shapefile c9raster "img" "20210615" [c9feat]).1.map Prod.fst
      = ["img_glacier_0_20210615.tif"] ∧
    ("img_glacier_0_20210615.tif" : String) ≠ "img_feature_0_20210615.tif" := by
  constructor
  · rfl
  · decide

/-- Claim C9 as amended: for a feature lacking a name attribute at enumeration index
idx whose masking succeeds, the output is named with the generated fallback glacier_
followed by idx. -/
theorem clip_fallback_name (raster : Box) (base ts : String) (idx : ℕ) (f : Feat)
    (img : Box) (hn : f.name = none) (hok : maskClip raster f.geom = Except.ok img) :
    (clipGo raster base ts idx [f]).1
      = [(outName base ("glacier_" ++ toString idx) ts, img)] := by
  rw [clipGo_cons_ok raster base ts idx f [] img hok]
  have hfn : featName f idx = "glacier_" ++ toString idx := by
    unfold featName
    rw [hn]
  rw [hfn, clipGo_nil]

/-- Witness for the amended fallback-name claim on the unnamed concrete feature. -/
theorem clip_fallback_name_witness :
    (clipGo c9raster "img" "20210615" 0 [c9feat]).1
      = [(outName "img" ("glacier_" ++ toString 0) "20210615",
          { minx := 1, miny := 1, maxx := 2, maxy := 2 })] :=
  clip_fallback_name c9raster "img" "20210615" 0 c9feat
    { minx := 1, miny := 1, maxx := 2, maxy := 2 } rfl (by rfl)

end RG

